import Mathlib

/-!
Verification of the face-identity matching core of the Smart-Attendance-System
repository: the cosine-similarity matcher (`Backend/live/recognizer.py`,
`Backend/utils/recognition.py`), the capped per-view embedding store
(`Backend/utils/embeddings.py`) and the liveness heuristics
(`Backend/utils/liveness.py`), shallowly embedded in Lean.

Floating-point values are modelled as real numbers (the matcher and liveness
scores involve square roots) or rationals where the source only does field
arithmetic and comparisons.  Filesystem effects (mtimes, `np.load`/`np.save`)
are modelled by passing the relevant state explicitly.
-/

namespace SmartAttendance

/-- `1e-8`, the ε-guard added to every L2 norm before dividing
(`recognition.py`, `recognizer.py`, `embeddings.py`). -/
noncomputable def eps : ℝ := 1 / 100000000

/-- A `D`-dimensional feature vector (`np.ndarray` of shape `(D,)`). -/
def Vec (d : ℕ) : Type := Fin d → ℝ

/-- Dot product of two vectors (`G @ q` row-wise). -/
noncomputable def dot (d : ℕ) (a b : Vec d) : ℝ := ∑ i, a i * b i

/-- Euclidean norm, `np.linalg.norm(v)`. -/
noncomputable def l2norm (d : ℕ) (v : Vec d) : ℝ := Real.sqrt (∑ i, v i * v i)

/-- The normalization step used throughout the matcher:
`v / (np.linalg.norm(v) + 1e-8)` (`recognition.py` lines 78, 114, 132;
`recognizer.py` line 32). -/
noncomputable def normalize (d : ℕ) (v : Vec d) : Vec d :=
  fun i => v i / (l2norm d v + eps)

/-- Maximum of a list of similarities (junk value `0` on `[]`). -/
noncomputable def listMax : List ℝ → ℝ
  | [] => 0
  | [x] => x
  | x :: y :: tl => max x (listMax (y :: tl))

/-- First index of the maximum of a list, `int(np.argmax(sims))`
(`np.argmax` returns the first occurrence of the maximal value). -/
noncomputable def idxMax : List ℝ → ℕ
  | [] => 0
  | [_] => 0
  | x :: y :: tl => if listMax (y :: tl) ≤ x then 0 else idxMax (y :: tl) + 1

/-- Identity metadata attached to each gallery row: `(student_id, view_type)`. -/
abbrev Meta : Type := String × String

/-- `best_match_vectorized(query_vec, G, meta)` (`recognition.py` lines 104-121).
The gallery matrix `G` of shape `(N, D)` is modelled as an optional list of `N`
row vectors; `G.size == 0` in numpy means `N = 0` or `D = 0`, hence the
`rows.length * d = 0` guard.  `meta[idx]` is modelled by `getD` (total lookup);
the callers keep `meta` and `G` at equal length. -/
noncomputable def best_match_vectorized (d : ℕ) (G : Option (List (Vec d)))
    (meta : List Meta) (query_vec : Vec d) : String × String × ℝ :=
  match G with
  | none => ("", "", -1)
  | some rows =>
    if rows.length * d = 0 then ("", "", -1)
    else
      let q := normalize d query_vec
      let sims := rows.map (fun g => dot d g q)
      let idx := idxMax sims
      let m := meta.getD idx ("", "")
      (m.1, m.2, sims.getD idx 0)

/-- The state of a `FaceRecognizer` (`recognizer.py`): gallery matrix,
parallel metadata and acceptance threshold. -/
structure FaceRecognizer (d : ℕ) where
  G : Option (List (Vec d))
  meta : List Meta
  threshold : ℝ

/-- `FaceRecognizer.recognize_embedding` (`recognizer.py` lines 27-37):
rejects when the gallery is absent or the metadata is empty, otherwise
normalizes the query, takes the best match and accepts iff `sim >= threshold`. -/
noncomputable def recognize_embedding {d : ℕ} (rec : FaceRecognizer d)
    (embedding : Vec d) : Option String × ℝ :=
  match rec.G with
  | none => (none, -1)
  | some rows =>
    if rec.meta.length = 0 then (none, -1)
    else
      let q := normalize d embedding
      let r := best_match_vectorized d (some rows) rec.meta q
      if rec.threshold ≤ r.2.2 then (some r.1, r.2.2) else (none, r.2.2)

/-- Descending-by-similarity ordering on `(meta, similarity)` pairs, used to
model the `argpartition`/`argsort(-sims)` selection in `top_k_matches`. -/
def descRel (a b : Meta × ℝ) : Prop := b.2 ≤ a.2

noncomputable instance : DecidableRel descRel :=
  fun a b => inferInstanceAs (Decidable (b.2 ≤ a.2))

instance : IsTotal (Meta × ℝ) descRel := ⟨fun a b => le_total b.2 a.2⟩

instance : IsTrans (Meta × ℝ) descRel := ⟨fun _ _ _ h1 h2 => le_trans h2 h1⟩

/-- Descending order on plain similarities. -/
def geR (a b : ℝ) : Prop := b ≤ a

noncomputable instance : DecidableRel geR :=
  fun a b => inferInstanceAs (Decidable (b ≤ a))

instance : IsTotal ℝ geR := ⟨fun a b => le_total b a⟩

instance : IsTrans ℝ geR := ⟨fun _ _ _ h1 h2 => le_trans h2 h1⟩

instance : IsAntisymm ℝ geR := ⟨fun _ _ h1 h2 => le_antisymm h2 h1⟩

/-- `top_k_matches(query_vec, G, meta, k)` (`recognition.py` lines 124-143).
`k = max(1, min(int(k), sims.size))`; the `argpartition` + `argsort(-sims)`
pair selects the `k` indices of largest similarity and orders them
descending; this is modelled as a descending sort of the `(meta, sim)` pairs
followed by `take k` (the order among equal similarities is
implementation-defined in numpy and unconstrained here). -/
noncomputable def top_k_matches (d : ℕ) (query_vec : Vec d)
    (G : Option (List (Vec d))) (meta : List Meta) (k : ℤ) :
    List (String × String × ℝ) :=
  match G with
  | none => []
  | some rows =>
    if rows.length * d = 0 then []
    else
      let q := normalize d query_vec
      let sims := rows.map (fun g => dot d g q)
      if sims.length = 0 then []
      else
        let kk := (max 1 (min k (sims.length : ℤ))).toNat
        let pairs := meta.zip sims
        let sorted := List.insertionSort descRel pairs
        (sorted.take kk).map (fun p => (p.1.1, p.1.2, p.2))

/-- One item of `load_all_embeddings`: `(student_id, view_type, matrix (K, D))`,
the matrix modelled as its list of `K` row vectors. -/
abbrev StoreItem (d : ℕ) : Type := String × String × List (Vec d)

/-- Total number of stored rows across all view slots. -/
def rowCount {d : ℕ} (items : List (StoreItem d)) : ℕ :=
  (items.map (fun it => it.2.2.length)).sum

/-- The flattened `(metadata, raw row)` sequence which `build_gallery`'s
nested loop walks, in loop order. -/
def flatPairs (d : ℕ) (items : List (StoreItem d)) : List (Meta × Vec d) :=
  items.flatMap (fun it => it.2.2.map (fun r => ((it.1, it.2.1), r)))

/-- `build_gallery(db_items)` (`recognition.py` lines 62-86): flatten every
matrix into individual L2-normalized rows with parallel `(student_id, view)`
metadata; `(None, [])` when there are no rows. -/
noncomputable def build_gallery (d : ℕ) (items : List (StoreItem d)) :
    Option (List (Vec d)) × List Meta :=
  let rows := items.flatMap (fun it => it.2.2.map (fun r => normalize d r))
  let meta := items.flatMap (fun it => it.2.2.map (fun _ => (it.1, it.2.1)))
  if rows.isEmpty then (none, []) else (some rows, meta)

/-- One entry of the module-level `_GALLERY_CACHE` dict: the latest `.npy`
mtime seen, the built matrix and its metadata. -/
structure CacheEntry (d : ℕ) where
  mtime : ℚ
  G : Option (List (Vec d))
  meta : List Meta

/-- `load_gallery_cached(emb_root)` (`recognition.py` lines 89-101) for one
root key.  The filesystem is abstracted to `latest` (the value of
`_latest_embedding_mtime(emb_root)`) and `items` (the value of
`load_all_embeddings(emb_root)`); the function returns the `(G, meta)` pair
together with the cache entry stored for the root afterwards. -/
noncomputable def load_gallery_cached (d : ℕ) (latest : ℚ)
    (items : List (StoreItem d)) (cache : Option (CacheEntry d)) :
    (Option (List (Vec d)) × List Meta) × CacheEntry d :=
  match cache with
  | some c =>
    if c.mtime = latest then ((c.G, c.meta), c)
    else
      let gm := build_gallery d items
      (gm, ⟨latest, gm.1, gm.2⟩)
  | none =>
    let gm := build_gallery d items
    (gm, ⟨latest, gm.1, gm.2⟩)

/-- The embedding-file update performed by `save_face_and_embedding`
(`embeddings.py` lines 107-122) on an uncorrupted `<view_type>.npy` slot:
append the new row, then keep only the last `max_samples` rows
(`new[-max_samples:]`).  `old = none` is the missing-file branch.  The stored
rows are opaque to the operation, so it is stated for an arbitrary type. -/
def save_slot {α : Type} (old : Option (List α)) (emb : α)
    (max_samples : ℕ) : List α :=
  match old with
  | none => [emb]
  | some rows =>
    let stacked := rows ++ [emb]
    if max_samples < stacked.length then
      -- Python `new[-max_samples:]` is the whole list when `max_samples = 0`
      if max_samples = 0 then stacked else stacked.drop (stacked.length - max_samples)
    else stacked

/-- `n` sequential saves `v1..vn` into an initially absent slot. -/
def save_many {α : Type} (vs : List α) (max_samples : ℕ) : Option (List α) :=
  vs.foldl (fun st v => some (save_slot st v max_samples)) none

/-- The matrix stored after `save_many` (empty when no save happened). -/
def storedRows {α : Type} (vs : List α) (max_samples : ℕ) : List α :=
  (save_many vs max_samples).getD []

/-- `Config.BLUR_THRESHOLD` default (`config.py` line 24). -/
noncomputable def blurThreshold : ℝ := 80

/-- `Config.LIVENESS_MIN_SCORE` default (`config.py` line 36). -/
noncomputable def livenessMinScore : ℝ := 67 / 100

/-- `Config.LIVENESS_MIN_FACE_RATIO` default (`config.py` line 37). -/
noncomputable def livenessMinFaceRatio : ℝ := 3 / 100

/-- `Config.LIVENESS_MIN_EYE_DIST_RATIO` default (`config.py` line 38). -/
noncomputable def livenessMinEyeDistRatio : ℝ := 1 / 4

/-- `Config.LIVENESS_CHALLENGE_SHIFT` default (`config.py` line 39). -/
def livenessChallengeShift : ℚ := 8 / 100

/-- The dict returned by `evaluate_liveness`; `details` holds
`(face_ratio, eye_ratio, blur_score)` and is absent on the fail-closed path. -/
structure LivenessResult where
  checked : Bool
  score : ℝ
  pass : Bool
  details : Option (ℝ × ℝ × ℝ)

/-- `evaluate_liveness(image_bgr, bbox_xyxy, landmarks)` (`liveness.py` lines
17-66).  The image enters only through its shape `(h_img, w_img)` and through
`blur = blur_score(crop_face_xyxy(image_bgr, bbox_xyxy))`, the Laplacian
variance of the crop; pixel contents are outside the model, so `blur` is
passed explicitly (being a variance it is non-negative).  `_dist` is the
Euclidean distance `((ax-bx)**2 + (ay-by)**2) ** 0.5`. -/
noncomputable def evaluate_liveness (h_img w_img : ℕ) (bbox : ℤ × ℤ × ℤ × ℤ)
    (landmarks : Option (List (ℝ × ℝ))) (blur : ℝ) : LivenessResult :=
  match landmarks with
  | none => ⟨false, 0, false, none⟩
  | some l =>
    if l.length < 2 then ⟨false, 0, false, none⟩
    else
      let (x1, _, x2, y2) := bbox
      let y1 := bbox.2.1
      let face_area : ℤ := max 0 (x2 - x1) * max 0 (y2 - y1)
      let img_area : ℕ := max 1 (w_img * h_img)
      let face_ratio : ℝ := (face_area : ℝ) / (img_area : ℝ)
      let left_eye := l.getD 0 (0, 0)
      let right_eye := l.getD 1 (0, 0)
      let eye_dist : ℝ :=
        Real.sqrt ((left_eye.1 - right_eye.1) ^ 2 + (left_eye.2 - right_eye.2) ^ 2)
      let bbox_w : ℤ := max 1 (x2 - x1)
      let eye_ratio : ℝ := eye_dist / (bbox_w : ℝ)
      let face_ratio_score : ℝ := min 1 (face_ratio / max (1 / 1000000) livenessMinFaceRatio)
      let eye_ratio_score : ℝ := min 1 (eye_ratio / max (1 / 1000000) livenessMinEyeDistRatio)
      let blur_score_norm : ℝ := min 1 (blur / max (1 / 1000000) blurThreshold)
      let score : ℝ := (face_ratio_score + eye_ratio_score + blur_score_norm) / 3
      ⟨true, score, decide (livenessMinScore ≤ score), some (face_ratio, eye_ratio, blur)⟩

/-- `_nose_ratio(bbox_xyxy, landmarks)` (`liveness.py` lines 69-78).
`not landmarks or len(landmarks) < 3` collapses to the length test (an empty
list has length `0 < 3`).  Landmark coordinates are rationals since only
field arithmetic is involved. -/
def nose_ratio (bbox : ℤ × ℤ × ℤ × ℤ) (landmarks : Option (List (ℚ × ℚ))) :
    Option ℚ :=
  match landmarks with
  | none => none
  | some l =>
    if l.length < 3 then none
    else
      let (x1, _, x2, _) := bbox
      let nose_x := (l.getD 2 (0, 0)).1
      let w : ℚ := max 1 ((x2 : ℚ) - (x1 : ℚ))
      some ((nose_x - (x1 : ℚ)) / w)

/-- The dict returned by `evaluate_liveness_challenge`; `reason` is present
only on failure paths, `challenge`/`ratios`/`details` only on success. -/
structure ChallengeResult where
  ok : Bool
  pass : Bool
  reason : Option String
  challenge : Option String
  ratios : List ℚ
  details : Option (Bool × Bool × Bool)
deriving DecidableEq

/-- `evaluate_liveness_challenge(frames, challenge)` (`liveness.py` lines
81-121): collect usable nose ratios in frame order, demand at least 2, then
test the left / right / center flags according to the challenge string. -/
def evaluate_liveness_challenge
    (frames : List ((ℤ × ℤ × ℤ × ℤ) × Option (List (ℚ × ℚ))))
    (challenge : String) : ChallengeResult :=
  if frames.isEmpty then ⟨false, false, some "no_frames", none, [], none⟩
  else
    let ratios := frames.filterMap (fun f => nose_ratio f.1 f.2)
    if ratios.length < 2 then ⟨false, false, some "no_landmarks", none, [], none⟩
    else
      let shift := livenessChallengeShift
      let left := ratios.any (fun r => decide (r ≤ 1 / 2 - shift))
      let right := ratios.any (fun r => decide (1 / 2 + shift ≤ r))
      let center := ratios.any (fun r => decide (|r - 1 / 2| ≤ shift))
      if challenge = "turn_left" then
        ⟨true, left && center, none, some challenge, ratios, some (left, right, center)⟩
      else if challenge = "turn_right" then
        ⟨true, right && center, none, some challenge, ratios, some (left, right, center)⟩
      else if challenge = "left_right" then
        ⟨true, left && right && center, none, some challenge, ratios, some (left, right, center)⟩
      else ⟨false, false, some "invalid_challenge", none, [], none⟩

/-! ### Helper lemmas -/

lemma rows_length_eq_rowCount {d : ℕ} (items : List (StoreItem d)) :
    (items.flatMap (fun it => it.2.2.map (fun r => normalize d r))).length =
      rowCount items := by
  simp [rowCount, List.length_flatMap, Function.comp_def]

lemma meta_length_eq_rowCount {d : ℕ} (items : List (StoreItem d)) :
    (items.flatMap (fun it => it.2.2.map (fun _ => ((it.1, it.2.1) : Meta)))).length =
      rowCount items := by
  simp [rowCount, List.length_flatMap, Function.comp_def]

lemma build_gallery_meta_length {d : ℕ} (items : List (StoreItem d)) :
    (build_gallery d items).2.length = rowCount items := by
  simp only [build_gallery]
  split
  · next h =>
    rw [List.isEmpty_iff] at h
    have := rows_length_eq_rowCount items
    rw [h] at this
    simpa using this
  · exact meta_length_eq_rowCount items

/-! ### C5 -/

/-- C5: for every query vector, if the gallery is empty (`G` is `None` or the
metadata list is empty, as happens for a root with no stored embeddings),
`recognize_embedding` returns the null identity paired with similarity `-1.0`
as an ordinary value. -/
theorem C5_empty_gallery_rejects {d : ℕ} (rec : FaceRecognizer d) (q : Vec d)
    (h : rec.G = none ∨ rec.meta = []) :
    recognize_embedding rec q = (none, -1) := by
  rcases h with h | h
  · simp [recognize_embedding, h]
  · cases hG : rec.G with
    | none => simp [recognize_embedding, hG]
    | some rows => simp [recognize_embedding, hG, h]

/-- Witness for C5 at a concrete empty recognizer. -/
theorem C5_empty_gallery_rejects_witness :
    recognize_embedding (d := 1) ⟨none, [], 4 / 10⟩ (fun _ => 0) = (none, -1) :=
  C5_empty_gallery_rejects _ _ (Or.inl rfl)

/-! ### C6 -/

/-- C6: for every image shape, bounding box and blur value,
`evaluate_liveness` with absent landmarks or fewer than 2 landmark points
returns `checked = false`, `score = 0`, `pass = false`. -/
theorem C6_liveness_fails_closed (h_img w_img : ℕ) (bbox : ℤ × ℤ × ℤ × ℤ)
    (landmarks : Option (List (ℝ × ℝ))) (blur : ℝ)
    (h : landmarks = none ∨ ∃ l, landmarks = some l ∧ l.length < 2) :
    evaluate_liveness h_img w_img bbox landmarks blur = ⟨false, 0, false, none⟩ := by
  rcases h with h | ⟨l, hl, hlen⟩
  · simp [evaluate_liveness, h]
  · subst hl
    simp [evaluate_liveness, hlen]

/-- Witness for C6 at concrete inputs with `landmarks = None`. -/
theorem C6_liveness_fails_closed_witness :
    evaluate_liveness 480 640 (0, 0, 100, 100) none 50 = ⟨false, 0, false, none⟩ :=
  C6_liveness_fails_closed 480 640 (0, 0, 100, 100) none 50 (Or.inl rfl)

/-! ### C9 -/

/-- C9: `build_gallery` returns a matrix and a metadata list of equal length:
the metadata has one `(identity, view)` entry per row, in the same row order
(both are projections of the same flattened `(meta, raw-row)` sequence), and
when there are no rows at all the result is `(None, [])`. -/
theorem C9_build_gallery_parallel {d : ℕ} (items : List (StoreItem d)) :
    (build_gallery d items).2.length = rowCount items
    ∧ (∀ rows, (build_gallery d items).1 = some rows →
        rows.length = (build_gallery d items).2.length
        ∧ rows = (flatPairs d items).map (fun p => normalize d p.2)
        ∧ (build_gallery d items).2 = (flatPairs d items).map (fun p => p.1))
    ∧ (rowCount items = 0 → build_gallery d items = (none, [])) := by
  have hrows_eq : items.flatMap (fun it => it.2.2.map (fun r => normalize d r)) =
      (flatPairs d items).map (fun p => normalize d p.2) := by
    simp [flatPairs, List.map_flatMap, Function.comp_def]
  have hmeta_eq : items.flatMap (fun it => it.2.2.map (fun _ => ((it.1, it.2.1) : Meta))) =
      (flatPairs d items).map (fun p => p.1) := by
    simp [flatPairs, List.map_flatMap, Function.comp_def]
  refine ⟨build_gallery_meta_length items, ?_, ?_⟩
  · intro rows hrows
    simp only [build_gallery] at hrows ⊢
    split at hrows
    · exact absurd hrows (by simp)
    · next h =>
      obtain rfl : _ = rows := Option.some_injective _ hrows
      rw [if_neg h]
      refine ⟨?_, hrows_eq, hmeta_eq⟩
      rw [rows_length_eq_rowCount items]
      exact (meta_length_eq_rowCount items).symm
  · intro h0
    have : (items.flatMap (fun it => it.2.2.map (fun r => normalize d r))) = [] := by
      have := rows_length_eq_rowCount items
      rw [h0] at this
      exact List.length_eq_zero.mp this
    simp [build_gallery, this]

/-- Witness for C9: the degenerate branch at a concrete empty store. -/
theorem C9_build_gallery_parallel_witness :
    build_gallery 1 [] = (none, []) :=
  (C9_build_gallery_parallel (d := 1) []).2.2 rfl

/-! ### C3 -/

/-- C3: `load_gallery_cached` is coherent with the store: with an equal
cached timestamp the cached pair is returned unchanged (cache entry kept as
is, no rebuild); with an advanced timestamp (or no cache) the result is
exactly the gallery built fresh from the store's current contents; and a
single appended sample in any slot grows the fresh gallery by exactly one
row. -/
theorem C3_cache_coherent {d : ℕ} (latest : ℚ) (items : List (StoreItem d))
    (c : CacheEntry d) :
    (c.mtime = latest →
      load_gallery_cached d latest items (some c) = ((c.G, c.meta), c))
    ∧ (c.mtime ≠ latest →
      load_gallery_cached d latest items (some c) =
        (build_gallery d items,
          ⟨latest, (build_gallery d items).1, (build_gallery d items).2⟩))
    ∧ (load_gallery_cached d latest items none =
        (build_gallery d items,
          ⟨latest, (build_gallery d items).1, (build_gallery d items).2⟩))
    ∧ (∀ (pre post : List (StoreItem d)) (s v : String) (M : List (Vec d)) (w : Vec d),
        (build_gallery d (pre ++ (s, v, M ++ [w]) :: post)).2.length =
          (build_gallery d (pre ++ (s, v, M) :: post)).2.length + 1) := by
  refine ⟨fun h => by simp [load_gallery_cached, h], fun h => by simp [load_gallery_cached, h],
    by simp [load_gallery_cached], ?_⟩
  intro pre post s v M w
  rw [build_gallery_meta_length, build_gallery_meta_length]
  simp [rowCount]
  omega

/-- Witness for C3: both the cache-hit and the cache-miss branch at concrete
inputs. -/
theorem C3_cache_coherent_witness :
    load_gallery_cached 1 0 [] (some ⟨0, none, []⟩) = ((none, []), ⟨0, none, []⟩)
    ∧ load_gallery_cached 1 1 [] (some ⟨0, none, []⟩) =
        (build_gallery 1 [], ⟨1, (build_gallery 1 []).1, (build_gallery 1 []).2⟩) :=
  ⟨(C3_cache_coherent 0 [] ⟨0, none, []⟩).1 rfl,
   (C3_cache_coherent 1 [] ⟨0, none, []⟩).2.1 (by decide)⟩

/-! ### C2 -/

lemma save_slot_some_eq {α : Type} (r : List α) (v : α) (max_samples : ℕ)
    (hmax : 0 < max_samples) (_hr : r.length ≤ max_samples) :
    save_slot (some r) v max_samples = (r ++ [v]).drop ((r.length + 1) - max_samples) := by
  simp only [save_slot]
  split
  · next h =>
    rw [if_neg (by omega)]
    simp
  · next h =>
    have : r.length + 1 ≤ max_samples := by simpa using Nat.not_lt.mp h
    rw [Nat.sub_eq_zero_of_le this, List.drop_zero]

lemma save_many_loop {α : Type} (max_samples : ℕ) (hmax : 0 < max_samples) :
    ∀ (vs r : List α), r.length ≤ max_samples →
      List.foldl (fun st v => some (save_slot st v max_samples)) (some r) vs =
        some ((r ++ vs).drop ((r ++ vs).length - max_samples)) := by
  intro vs
  induction vs with
  | nil =>
    intro r hr
    simp [Nat.sub_eq_zero_of_le hr]
  | cons v tl ih =>
    intro r hr
    have hstep : save_slot (some r) v max_samples =
        (r ++ [v]).drop ((r.length + 1) - max_samples) :=
      save_slot_some_eq r v max_samples hmax hr
    have hlen' : (save_slot (some r) v max_samples).length =
        (r.length + 1) - ((r.length + 1) - max_samples) := by
      rw [hstep, List.length_drop, List.length_append, List.length_singleton]
    have hle' : (save_slot (some r) v max_samples).length ≤ max_samples := by omega
    rw [List.foldl_cons, ih _ hle']
    have h1 : (save_slot (some r) v max_samples ++ tl).length =
        ((r.length + 1) - ((r.length + 1) - max_samples)) + tl.length := by
      rw [List.length_append, hlen']
    rw [h1, hstep,
      ← List.drop_append_of_le_length (n := (r.length + 1) - max_samples)
        (by simp),
      List.drop_drop]
    have harr : (r ++ [v]) ++ tl = r ++ v :: tl := by simp
    rw [harr]
    congr 2
    simp only [List.length_append, List.length_cons]
    omega

/-- C2: with a positive capacity (default 8), `n` sequential
`save_face_and_embedding` writes `v1..vn` into an initially absent
uncorrupted slot leave exactly the last `min n max_samples` vectors in
insertion order (FIFO eviction of the oldest): the stored matrix equals
`drop (n - max_samples) [v1..vn]`, once `n` exceeds `max_samples` it has
exactly `max_samples` rows, and once non-empty its row count always lies
between 1 and `max_samples`. -/
theorem C2_fifo_capacity {α : Type} (max_samples : ℕ) (hmax : 0 < max_samples)
    (vs : List α) :
    storedRows vs max_samples = vs.drop (vs.length - max_samples)
    ∧ (max_samples < vs.length → (storedRows vs max_samples).length = max_samples)
    ∧ (vs ≠ [] → 1 ≤ (storedRows vs max_samples).length
        ∧ (storedRows vs max_samples).length ≤ max_samples) := by
  have hmain : storedRows vs max_samples = vs.drop (vs.length - max_samples) := by
    cases vs with
    | nil => simp [storedRows, save_many]
    | cons v tl =>
      have h1 : save_many (v :: tl) max_samples =
          List.foldl (fun st w => some (save_slot st w max_samples)) (some [v]) tl := by
        simp [save_many, save_slot]
      rw [storedRows, h1, save_many_loop max_samples hmax tl [v] (by simpa using hmax)]
      simp
  refine ⟨hmain, ?_, ?_⟩
  · intro hlt
    rw [hmain, List.length_drop]
    omega
  · intro hne
    have hpos : 0 < vs.length := List.length_pos.mpr hne
    rw [hmain, List.length_drop]
    omega

/-- Witness for C2: eleven saves into a capacity-8 slot keep the last 8. -/
theorem C2_fifo_capacity_witness :
    storedRows [1, 2, 3, 4, 5, 6, 7, 8, 9, 10, 11] 8 =
      ([1, 2, 3, 4, 5, 6, 7, 8, 9, 10, 11] : List ℕ).drop (11 - 8)
    ∧ (8 < ([1, 2, 3, 4, 5, 6, 7, 8, 9, 10, 11] : List ℕ).length →
        (storedRows [1, 2, 3, 4, 5, 6, 7, 8, 9, 10, 11] 8).length = 8) := by
  have h := C2_fifo_capacity 8 (by decide) ([1, 2, 3, 4, 5, 6, 7, 8, 9, 10, 11] : List ℕ)
  exact ⟨h.1, fun _ => h.2.1 (by decide)⟩

/-! ### C1 -/

lemma idxMax_spec (l : List ℝ) :
    l ≠ [] → (l.getD (idxMax l) 0 = listMax l ∧ idxMax l < l.length) := by
  induction l with
  | nil => intro h; exact absurd rfl h
  | cons x tl ih =>
    intro _
    cases tl with
    | nil => simp [idxMax, listMax]
    | cons y tl' =>
      rcases ih (by simp) with ⟨ih1, ih2⟩
      by_cases h : listMax (y :: tl') ≤ x
      · constructor
        · simp [idxMax, listMax, h, max_eq_left h]
        · simp [idxMax, h]
      · have hx : x ≤ listMax (y :: tl') := (not_le.mp h).le
        have hidx : idxMax (x :: y :: tl') = idxMax (y :: tl') + 1 := by
          simp [idxMax, h]
        constructor
        · rw [hidx, List.getD_cons_succ, ih1]
          simp [listMax, max_eq_right hx]
        · rw [hidx]
          simpa using ih2

/-- C1: for every query embedding and non-empty gallery (with metadata of
matching length and positive dimension), `recognize_embedding` reports the
arg-max similarity `s` of the computed similarity list, returns the arg-max
row's identity exactly when `threshold ≤ s`, and returns the null identity
(still paired with `s`) when `s` is below the threshold. -/
theorem C1_threshold_decision {d : ℕ} (rec : FaceRecognizer d) (q : Vec d)
    (rows : List (Vec d)) (hG : rec.G = some rows) (hrows : rows ≠ [])
    (hd : 0 < d) (hlen : rec.meta.length = rows.length) :
    recognize_embedding rec q =
      (if rec.threshold ≤
          listMax (rows.map (fun g => dot d g (normalize d (normalize d q)))) then
        some ((rec.meta.getD
          (idxMax (rows.map (fun g => dot d g (normalize d (normalize d q))))) ("", "")).1)
       else none,
       listMax (rows.map (fun g => dot d g (normalize d (normalize d q))))) := by
  obtain ⟨G0, meta0, thr0⟩ := rec
  simp only at hG hlen ⊢
  subst hG
  have hsne : rows.map (fun g => dot d g (normalize d (normalize d q))) ≠ [] := by
    cases rows with
    | nil => exact absurd rfl hrows
    | cons a l => simp
  obtain ⟨hget, hidx⟩ := idxMax_spec _ hsne
  have hmeta0 : ¬ (meta0.length = 0) := by
    rw [hlen]
    simpa using hrows
  have hguard : ¬ (rows.length * d = 0) := by
    have h1 : rows.length ≠ 0 := by simpa using hrows
    exact Nat.mul_ne_zero h1 (by omega)
  simp only [recognize_embedding, best_match_vectorized]
  rw [if_neg hmeta0, if_neg hguard]
  rw [hget]
  split_ifs with h
  · rfl
  · rfl

/-- Witness for C1 at a concrete one-row gallery. -/
theorem C1_threshold_decision_witness :
    recognize_embedding (d := 1) ⟨some [fun _ => 1], [("alice", "front")], 0⟩ (fun _ => 1) =
      (if (0 : ℝ) ≤
          listMax ([fun _ => (1 : ℝ)].map
            (fun g => dot 1 g (normalize 1 (normalize 1 (fun _ => 1))))) then
        some ((([("alice", "front")] : List Meta).getD
          (idxMax ([fun _ => (1 : ℝ)].map
            (fun g => dot 1 g (normalize 1 (normalize 1 (fun _ => 1)))))) ("", "")).1)
       else none,
       listMax ([fun _ => (1 : ℝ)].map
         (fun g => dot 1 g (normalize 1 (normalize 1 (fun _ => 1)))))) :=
  C1_threshold_decision ⟨some [fun _ => 1], [("alice", "front")], 0⟩ (fun _ => 1)
    [fun _ => 1] rfl (by simp) (by decide) rfl

/-! ### C4 -/

/-- The list of usable nose ratios collected by the loop in
`evaluate_liveness_challenge`, in frame order. -/
def challengeRatios
    (frames : List ((ℤ × ℤ × ℤ × ℤ) × Option (List (ℚ × ℚ)))) : List ℚ :=
  frames.filterMap (fun f => nose_ratio f.1 f.2)

/-- C4: whenever at least 2 frames yield a usable nose ratio,
`evaluate_liveness_challenge` succeeds (`ok = true`) and passes exactly
according to the challenge: `turn_left` iff some ratio is ≤ `0.5 - shift`
and some ratio is within `shift` of `0.5`; `turn_right` iff some ratio is
≥ `0.5 + shift` and some is central; `left_right` iff all three flags hold;
any other challenge string yields `ok = false` with reason
`"invalid_challenge"`. -/
theorem C4_challenge_semantics
    (frames : List ((ℤ × ℤ × ℤ × ℤ) × Option (List (ℚ × ℚ))))
    (h2 : 2 ≤ (challengeRatios frames).length) :
    ((evaluate_liveness_challenge frames "turn_left").ok = true
      ∧ ((evaluate_liveness_challenge frames "turn_left").pass = true ↔
          (∃ r ∈ challengeRatios frames, r ≤ 1 / 2 - livenessChallengeShift)
          ∧ (∃ r ∈ challengeRatios frames, |r - 1 / 2| ≤ livenessChallengeShift)))
    ∧ ((evaluate_liveness_challenge frames "turn_right").ok = true
      ∧ ((evaluate_liveness_challenge frames "turn_right").pass = true ↔
          (∃ r ∈ challengeRatios frames, 1 / 2 + livenessChallengeShift ≤ r)
          ∧ (∃ r ∈ challengeRatios frames, |r - 1 / 2| ≤ livenessChallengeShift)))
    ∧ ((evaluate_liveness_challenge frames "left_right").ok = true
      ∧ ((evaluate_liveness_challenge frames "left_right").pass = true ↔
          (∃ r ∈ challengeRatios frames, r ≤ 1 / 2 - livenessChallengeShift)
          ∧ (∃ r ∈ challengeRatios frames, 1 / 2 + livenessChallengeShift ≤ r)
          ∧ (∃ r ∈ challengeRatios frames, |r - 1 / 2| ≤ livenessChallengeShift)))
    ∧ (∀ c : String, c ≠ "turn_left" → c ≠ "turn_right" → c ≠ "left_right" →
        evaluate_liveness_challenge frames c =
          ⟨false, false, some "invalid_challenge", none, [], none⟩) := by
  have hne : frames.isEmpty = false := by
    cases frames with
    | nil => simp [challengeRatios] at h2
    | cons a l => rfl
  have hlt : ¬ ((frames.filterMap (fun f => nose_ratio f.1 f.2)).length < 2) := by
    rw [not_lt]
    simpa [challengeRatios] using h2
  refine ⟨?_, ?_, ?_, ?_⟩
  · constructor
    · simp [evaluate_liveness_challenge, hne, if_neg hlt]
    · simp [evaluate_liveness_challenge, hne, if_neg hlt, challengeRatios,
        List.any_eq_true, Bool.and_eq_true, -List.any_filterMap, -List.mem_filterMap]
  · constructor
    · simp [evaluate_liveness_challenge, hne, if_neg hlt]
    · simp [evaluate_liveness_challenge, hne, if_neg hlt, challengeRatios,
        List.any_eq_true, Bool.and_eq_true, -List.any_filterMap, -List.mem_filterMap]
  · constructor
    · simp [evaluate_liveness_challenge, hne, if_neg hlt]
    · simp [evaluate_liveness_challenge, hne, if_neg hlt, challengeRatios,
        List.any_eq_true, Bool.and_eq_true, and_assoc,
        -List.any_filterMap, -List.mem_filterMap]
  · intro c hc1 hc2 hc3
    simp [evaluate_liveness_challenge, hne, if_neg hlt, hc1, hc2, hc3]

/-- Witness for C4: three frames with nose ratios `3/10, 1/2, 7/10` and an
unknown challenge string. -/
theorem C4_challenge_semantics_witness :
    evaluate_liveness_challenge
      [((0, 0, 10, 0), some [(0, 0), (0, 0), (3, 0)]),
       ((0, 0, 10, 0), some [(0, 0), (0, 0), (5, 0)]),
       ((0, 0, 10, 0), some [(0, 0), (0, 0), (7, 0)])] "bogus" =
      ⟨false, false, some "invalid_challenge", none, [], none⟩ :=
  (C4_challenge_semantics
      [((0, 0, 10, 0), some [(0, 0), (0, 0), (3, 0)]),
       ((0, 0, 10, 0), some [(0, 0), (0, 0), (5, 0)]),
       ((0, 0, 10, 0), some [(0, 0), (0, 0), (7, 0)])]
      (by decide)).2.2.2 "bogus" (by decide) (by decide) (by decide)

/-! ### C10 -/

lemma min_one_div_bounds {x c : ℝ} (hx : 0 ≤ x) (hc : 0 < c) :
    0 ≤ min 1 (x / c) ∧ min 1 (x / c) ≤ 1 :=
  ⟨le_min zero_le_one (div_nonneg hx hc.le), min_le_left _ _⟩

/-- C10: with at least 2 landmark points (and the crop's Laplacian variance,
which is non-negative), `evaluate_liveness` returns `checked = true`, a
composite score in `[0, 1]` (each sub-score is non-negative and clamped to at
most 1 before averaging), and `pass = true` exactly when the score reaches
`livenessMinScore`. -/
theorem C10_liveness_score_bounds (h_img w_img : ℕ) (bbox : ℤ × ℤ × ℤ × ℤ)
    (l : List (ℝ × ℝ)) (blur : ℝ) (hl : 2 ≤ l.length) (hblur : 0 ≤ blur) :
    (evaluate_liveness h_img w_img bbox (some l) blur).checked = true
    ∧ 0 ≤ (evaluate_liveness h_img w_img bbox (some l) blur).score
    ∧ (evaluate_liveness h_img w_img bbox (some l) blur).score ≤ 1
    ∧ ((evaluate_liveness h_img w_img bbox (some l) blur).pass = true ↔
        livenessMinScore ≤ (evaluate_liveness h_img w_img bbox (some l) blur).score) := by
  obtain ⟨x1, y1, x2, y2⟩ := bbox
  have hguard : ¬ (l.length < 2) := not_lt.mpr hl
  have hfa : (0 : ℝ) ≤ ((max 0 (x2 - x1) * max 0 (y2 - y1) : ℤ) : ℝ) := by
    have h : (0 : ℤ) ≤ max 0 (x2 - x1) * max 0 (y2 - y1) :=
      mul_nonneg (le_max_left _ _) (le_max_left _ _)
    exact_mod_cast h
  have hia : (0 : ℝ) < ((max 1 (w_img * h_img) : ℕ) : ℝ) := by
    exact_mod_cast Nat.lt_of_lt_of_le Nat.zero_lt_one (le_max_left _ _)
  have hbw : (0 : ℝ) < ((max 1 (x2 - x1) : ℤ) : ℝ) := by
    exact_mod_cast lt_of_lt_of_le Int.zero_lt_one (le_max_left _ _)
  have hc1 : (0 : ℝ) < max (1 / 1000000) livenessMinFaceRatio :=
    lt_of_lt_of_le (by norm_num) (le_max_left _ _)
  have hc2 : (0 : ℝ) < max (1 / 1000000) livenessMinEyeDistRatio :=
    lt_of_lt_of_le (by norm_num) (le_max_left _ _)
  have hc3 : (0 : ℝ) < max (1 / 1000000) blurThreshold :=
    lt_of_lt_of_le (by norm_num) (le_max_left _ _)
  have hfr : (0 : ℝ) ≤ ((max 0 (x2 - x1) * max 0 (y2 - y1) : ℤ) : ℝ) /
      ((max 1 (w_img * h_img) : ℕ) : ℝ) := div_nonneg hfa hia.le
  have her : (0 : ℝ) ≤
      Real.sqrt (((l.getD 0 (0, 0)).1 - (l.getD 1 (0, 0)).1) ^ 2 +
        ((l.getD 0 (0, 0)).2 - (l.getD 1 (0, 0)).2) ^ 2) / ((max 1 (x2 - x1) : ℤ) : ℝ) :=
    div_nonneg (Real.sqrt_nonneg _) hbw.le
  obtain ⟨hs1a, hs1b⟩ := min_one_div_bounds hfr hc1
  obtain ⟨hs2a, hs2b⟩ := min_one_div_bounds her hc2
  obtain ⟨hs3a, hs3b⟩ := min_one_div_bounds hblur hc3
  simp only [evaluate_liveness, if_neg hguard]
  refine ⟨by trivial, ?_, ?_, ?_⟩
  · exact div_nonneg (by linarith) (by norm_num)
  · rw [div_le_one (by norm_num)]
    linarith
  · exact decide_eq_true_iff

/-- Witness for C10 at a concrete frame. -/
theorem C10_liveness_score_bounds_witness :
    (evaluate_liveness 480 640 (0, 0, 100, 100) (some [(0, 0), (1, 0)]) 0).checked = true
    ∧ 0 ≤ (evaluate_liveness 480 640 (0, 0, 100, 100) (some [(0, 0), (1, 0)]) 0).score
    ∧ (evaluate_liveness 480 640 (0, 0, 100, 100) (some [(0, 0), (1, 0)]) 0).score ≤ 1
    ∧ ((evaluate_liveness 480 640 (0, 0, 100, 100) (some [(0, 0), (1, 0)]) 0).pass = true ↔
        livenessMinScore ≤
          (evaluate_liveness 480 640 (0, 0, 100, 100) (some [(0, 0), (1, 0)]) 0).score) :=
  C10_liveness_score_bounds 480 640 (0, 0, 100, 100) [(0, 0), (1, 0)] 0 (by decide) le_rfl

/-! ### C7 -/

/-- C7 counterexample: the claim "`top_k_matches` returns up to `k` tuples"
fails at `k = 0`: on a one-row gallery the code sets
`k = max(1, min(int(k), sims.size)) = 1` and returns one tuple. -/
theorem C7_topk_counterexample :
    0 < (top_k_matches 1 (fun _ => 0) (some [fun _ => 1]) [("a", "front")] 0).length := by
  simp [top_k_matches, List.insertionSort, List.orderedInsert]

/-- C7 (amended to `k ≥ 1`): for every non-empty gallery of `N` rows with
matching metadata and every `k ≥ 1`, `top_k_matches` returns exactly
`min k N` (hence up to `k`) `(identity, view, similarity)` tuples whose
similarities are sorted descending and equal to the first `min k N` entries
of the descending sort of all `N` similarities (the `k` largest); on an
absent gallery it returns `[]`. -/
theorem C7_topk_amended {d : ℕ} (q : Vec d) (rows : List (Vec d))
    (meta : List Meta) (k : ℤ) (hrows : rows ≠ []) (hd : 0 < d)
    (hlen : meta.length = rows.length) (hk : 1 ≤ k) :
    (top_k_matches d q (some rows) meta k).length = min k.toNat rows.length
    ∧ List.Sorted geR ((top_k_matches d q (some rows) meta k).map (fun t => t.2.2))
    ∧ (top_k_matches d q (some rows) meta k).map (fun t => t.2.2) =
        (List.insertionSort geR (rows.map (fun g => dot d g (normalize d q)))).take
          (min k.toNat rows.length)
    ∧ top_k_matches d q none meta k = [] := by
  have hN : 0 < rows.length := List.length_pos.mpr hrows
  have hguard : ¬ (rows.length * d = 0) :=
    Nat.mul_ne_zero (by omega) (by omega)
  have hslen : (rows.map (fun g => dot d g (normalize d q))).length = rows.length :=
    List.length_map _ _
  have hs0 : ¬ ((rows.map (fun g => dot d g (normalize d q))).length = 0) := by
    rw [hslen]; omega
  set sims := rows.map (fun g => dot d g (normalize d q)) with hsims
  set pairs := meta.zip sims with hpairs
  have hplen : pairs.length = rows.length := by
    rw [hpairs, List.length_zip, hlen, hslen, min_self]
  have hkk : (max 1 (min k (sims.length : ℤ))).toNat = min k.toNat rows.length := by
    rw [hslen]
    omega
  have hsortlen : (List.insertionSort descRel pairs).length = pairs.length :=
    (List.perm_insertionSort descRel pairs).length_eq
  have hsorted : List.Sorted descRel (List.insertionSort descRel pairs) :=
    List.sorted_insertionSort descRel pairs
  have hsnd : pairs.map Prod.snd = sims := by
    rw [hpairs]
    exact List.map_snd_zip meta sims (by rw [hlen, hslen])
  have hkey : (List.insertionSort descRel pairs).map Prod.snd =
      List.insertionSort geR sims := by
    refine List.eq_of_perm_of_sorted ?_ ?_ (List.sorted_insertionSort geR sims)
    · exact (((List.perm_insertionSort descRel pairs).map Prod.snd).trans
        (by rw [hsnd])).trans (List.perm_insertionSort geR sims).symm
    · exact List.Pairwise.map Prod.snd (fun a b h => h) hsorted
  simp only [top_k_matches, if_neg hguard, if_neg hs0]
  rw [← hsims, ← hpairs]
  refine ⟨?_, ?_, ?_, by trivial⟩
  · rw [List.length_map, List.length_take, hsortlen, hplen, hkk]
    omega
  · have htake : List.Sorted descRel ((List.insertionSort descRel pairs).take
        (max 1 (min k (sims.length : ℤ))).toNat) :=
      List.Pairwise.sublist (List.take_sublist _ _) hsorted
    have hmm : (((List.insertionSort descRel pairs).take
        (max 1 (min k (sims.length : ℤ))).toNat).map
          (fun p : Meta × ℝ => (p.1.1, p.1.2, p.2))).map (fun t => t.2.2) =
        ((List.insertionSort descRel pairs).take
          (max 1 (min k (sims.length : ℤ))).toNat).map Prod.snd := by
      rw [List.map_map]
      rfl
    rw [hmm]
    exact List.Pairwise.map Prod.snd (fun a b h => h) htake
  · rw [List.map_map]
    have hcomp : ((fun t : String × String × ℝ => t.2.2) ∘
        (fun p : Meta × ℝ => (p.1.1, p.1.2, p.2))) = Prod.snd := rfl
    rw [hcomp, List.map_take, hkey, hkk]

/-- Witness for the amended C7 at a concrete one-row gallery with `k = 1`. -/
theorem C7_topk_amended_witness :
    (top_k_matches 1 (fun _ => 0) (some [fun _ => 1]) [("a", "front")] 1).length =
      min (1 : ℤ).toNat ([fun _ => (1 : ℝ)] : List (Vec 1)).length
    ∧ List.Sorted geR
        ((top_k_matches 1 (fun _ => 0) (some [fun _ => 1]) [("a", "front")] 1).map
          (fun t => t.2.2))
    ∧ (top_k_matches 1 (fun _ => 0) (some [fun _ => 1]) [("a", "front")] 1).map
          (fun t => t.2.2) =
        (List.insertionSort geR
          (([fun _ => (1 : ℝ)] : List (Vec 1)).map
            (fun g => dot 1 g (normalize 1 (fun _ => 0))))).take
          (min (1 : ℤ).toNat ([fun _ => (1 : ℝ)] : List (Vec 1)).length)
    ∧ top_k_matches 1 (fun _ => 0) none [("a", "front")] 1 = [] :=
  C7_topk_amended (fun _ => 0) [fun _ => 1] [("a", "front")] 1
    (by simp) (by decide) rfl (by decide)

/-! ### C8 -/

lemma l2norm_mul_const {d : ℕ} (v : Vec d) (c : ℝ) :
    l2norm d (fun i => v i * c) = l2norm d v * |c| := by
  rw [l2norm, l2norm]
  rw [Finset.sum_congr rfl (fun i _ => show (v i * c) * (v i * c) = (v i * v i) * c ^ 2 by ring)]
  rw [← Finset.sum_mul,
    Real.sqrt_mul (Finset.sum_nonneg fun i _ => mul_self_nonneg (v i)),
    Real.sqrt_sq_eq_abs]

lemma abs_le_l2norm {d : ℕ} (v : Vec d) (i : Fin d) : |v i| ≤ l2norm d v := by
  rw [l2norm, ← Real.sqrt_mul_self_eq_abs]
  exact Real.sqrt_le_sqrt
    (Finset.single_le_sum (fun j _ => mul_self_nonneg (v j)) (Finset.mem_univ i))

lemma l2norm_normalize {d : ℕ} (v : Vec d) :
    l2norm d (normalize d v) = l2norm d v / (l2norm d v + eps) := by
  have heps : (0 : ℝ) < eps := by norm_num [eps]
  have hn : (0 : ℝ) ≤ l2norm d v := Real.sqrt_nonneg _
  have hden : (0 : ℝ) < l2norm d v + eps := by linarith
  have hrw : normalize d v = fun i => v i * (1 / (l2norm d v + eps)) := by
    funext i
    rw [normalize]
    ring
  rw [hrw, l2norm_mul_const, abs_of_pos (by positivity), mul_one_div]

/-- C8 counterexample: the claim fails for the nonzero vector
`v = (1e-8)`: its norm is comparable to the ε-guard, `normalize v = (1/2)`
but `normalize (normalize v) ≈ (1)`, a difference of about `0.5` — far
beyond any floating tolerance (here checked against `1/1000`). -/
theorem C8_normalize_counterexample :
    (fun _ => eps : Vec 1) ≠ (fun _ => 0)
    ∧ ¬ (|normalize 1 (normalize 1 (fun _ => eps)) 0 -
          normalize 1 (fun _ => eps) 0| ≤ 1 / 1000) := by
  constructor
  · intro h
    have h0 := congrFun h 0
    norm_num [eps] at h0
  · have h1 : l2norm 1 (fun _ => eps) = eps := by
      rw [l2norm, Fin.sum_univ_one]
      exact Real.sqrt_mul_self (by norm_num [eps])
    have h2 : normalize 1 (fun _ => eps) = fun _ => 1 / 2 := by
      funext i
      rw [normalize, h1]
      norm_num [eps]
    have h3 : l2norm 1 (fun _ => (1 / 2 : ℝ)) = 1 / 2 := by
      rw [l2norm, Fin.sum_univ_one]
      rw [show ((1 : ℝ) / 2) * (1 / 2) = (1 / 2) ^ 2 by ring, Real.sqrt_sq (by norm_num)]
    rw [h2, normalize, h3]
    norm_num [eps]
    rw [abs_of_pos (by norm_num : (0 : ℝ) < 49999999 / 100000002)]
    norm_num

/-- C8 (amended): for every vector `v` whose L2 norm is at least 1 — in
particular every vector the matcher actually normalizes twice after its
first pass, excluding only vectors whose norm is comparable to the ε-guard —
applying `v ↦ v / (‖v‖₂ + 1e-8)` twice differs from applying it once by at
most `ε = 1e-8` in every component. -/
theorem C8_normalize_idempotent_amended {d : ℕ} (v : Vec d)
    (hv : 1 ≤ l2norm d v) (i : Fin d) :
    |normalize d (normalize d v) i - normalize d v i| ≤ eps := by
  have heps : (0 : ℝ) < eps := by norm_num [eps]
  set n := l2norm d v with hn_def
  have hden : (0 : ℝ) < n + eps := by linarith
  set m := l2norm d (normalize d v) with hm_def
  have hm : m = n / (n + eps) := l2norm_normalize v
  have hm_nonneg : 0 ≤ m := Real.sqrt_nonneg _
  have hm_lt : m < 1 := by
    rw [hm]
    exact (div_lt_one hden).mpr (by linarith)
  have hm_ge : 1 - eps ≤ m := by
    rw [hm, le_div_iff₀ hden]
    nlinarith [mul_nonneg heps.le (sub_nonneg.mpr hv)]
  have hm1 : 1 ≤ m + eps := by linarith
  have hmden : (0 : ℝ) < m + eps := by linarith
  have habs : |1 - (m + eps)| ≤ eps := by
    rw [abs_le]
    constructor <;> linarith
  have hdiff : normalize d (normalize d v) i - normalize d v i =
      (v i / (n + eps)) * ((1 - (m + eps)) / (m + eps)) := by
    simp only [normalize, ← hn_def, ← hm_def]
    field_simp
    ring
  have hvi : |v i / (n + eps)| ≤ 1 := by
    rw [abs_div, abs_of_pos hden, div_le_one hden]
    have := abs_le_l2norm v i
    linarith
  have hfac : |(1 - (m + eps)) / (m + eps)| ≤ eps := by
    rw [abs_div, abs_of_pos hmden]
    calc |1 - (m + eps)| / (m + eps) ≤ |1 - (m + eps)| / 1 :=
          by gcongr
      _ = |1 - (m + eps)| := by rw [div_one]
      _ ≤ eps := habs
  calc |normalize d (normalize d v) i - normalize d v i|
      = |v i / (n + eps)| * |(1 - (m + eps)) / (m + eps)| := by
        rw [hdiff, abs_mul]
    _ ≤ 1 * eps := mul_le_mul hvi hfac (abs_nonneg _) zero_le_one
    _ = eps := one_mul eps

/-- Witness for the amended C8 at the unit vector of dimension 1. -/
theorem C8_normalize_idempotent_amended_witness :
    |normalize 1 (normalize 1 (fun _ => 1)) 0 - normalize 1 (fun _ => 1) 0| ≤ eps :=
  C8_normalize_idempotent_amended (fun _ => 1)
    (by rw [l2norm, Fin.sum_univ_one]; simp) 0

end SmartAttendance
